import Mathlib

/-!
Shallow embedding of the kline-synchronization core of the
binance-algorithmic-trading repository: the pagination / backfill driver and
gap synchronizer of `database_manager.py` and the rate-limit / error backoff
policy of `client_manager.py`.

Modelling conventions:

* Instants are integers counting milliseconds since the Unix epoch.  The
  source floors every window boundary to whole milliseconds before use
  (`floor(start_time_ms_since_utc)` etc.); on this whole-millisecond domain
  the floor is the identity and is kept as the explicit marker `floor_ms`
  at exactly the places the source applies `math.floor`.  A stored
  `datetime` is modelled by the instant (epoch milliseconds) it denotes, so
  `dt.timestamp() * 1000` is the identity and
  `datetime.fromtimestamp(ms / 1000)` is the identity on the instant.
* Decimal price/volume strings are converted to exact rationals; Python
  exceptions are modelled with `Except` / the `RunResult.pyError`
  constructor; `None` results are `Option.none`.
* The unbounded `while True` loops of `_get_klines` are given an explicit
  fuel parameter; exhausting the fuel yields `RunResult.outOfFuel`, which is
  distinct from any behaviour of the source.
* The provider client (`binance.spot.Spot`) and the wall clock are external
  collaborators: they enter as function parameters (`fetch`, `clock`,
  `response`).
-/

/-- Python exceptions raised by the modelled code paths. -/
inductive PyError where
  | attributeError (attr : String)
  | keyError (key : String)
  | valueError (msg : String)
deriving DecidableEq, Repr

/-- Outcome of running a fuel-bounded loop: normal completion, a Python
exception, or fuel exhaustion (the latter never corresponds to a behaviour of
the source; theorems supply enough fuel). -/
inductive RunResult (α : Type) where
  | ok (a : α)
  | pyError (e : PyError)
  | outOfFuel
deriving DecidableEq, Repr

/-- One raw kline row as returned by the provider: a fixed positional tuple
`[open_time_ms, open, high, low, close, volume, close_time_ms,
quote_asset_volume, num_trades, taker_buy_base_volume,
taker_buy_quote_volume, ignore]`.  Numeric prices/volumes arrive as decimal
strings; the two timestamps and the trade count are integers. -/
structure RawKline where
  open_time_ms : ℤ
  open_str : String
  high_str : String
  low_str : String
  close_str : String
  volume_str : String
  close_time_ms : ℤ
  quote_asset_volume_str : String
  num_trades : ℤ
  taker_buy_base_str : String
  taker_buy_quote_str : String
  ignore_field : String := ""
deriving DecidableEq, Repr

/-- A persisted kline row (`models/klines.py`, class `Kline`).  `open_time`
and `close_time` are stored `datetime`s, modelled as epoch-millisecond
instants; the float columns are modelled as exact rationals.  The Python
field `open` is a Lean keyword and is rendered `open_`. -/
structure Kline where
  symbol : String
  interval : String
  open_time : ℤ
  open_ : ℚ
  high : ℚ
  low : ℚ
  close : ℚ
  volume : ℚ
  close_time : ℤ
  quote_asset_volume : ℚ
  num_trades : ℤ
  taker_buy_base_asset_volume : ℚ
  taker_buy_quote_asset_volume : ℚ
deriving DecidableEq, Repr

/-- Value of a nonempty all-digit character list, read in base 10. -/
def digitsVal (cs : List Char) : Option ℕ :=
  if cs.isEmpty then none
  else if cs.all Char.isDigit then
    some (cs.foldl (fun a c => a * 10 + (c.toNat - 48)) 0)
  else none

/-- Python `int(...)` on a plain (optionally negative) integer literal
string; `none` models the `ValueError` on any other input. -/
def parse_int (s : String) : Option ℤ :=
  match s.toList with
  | '-' :: rest => (digitsVal rest).map (fun n => -(n : ℤ))
  | cs => (digitsVal cs).map (fun n => (n : ℤ))

/-- Python `str.upper()` on the ASCII configuration strings this program
handles. -/
def str_upper (s : String) : String :=
  String.mk (s.toList.map Char.toUpper)

/-- Exact value of a parsed decimal literal: sign, integer part, fraction
digits, and the number of fraction digits. -/
def decimalVal (neg : Bool) (ip fp : ℕ) (scale : ℕ) : ℚ :=
  (if neg then (-1 : ℚ) else 1) * ((ip : ℚ) + (fp : ℚ) / (10 : ℚ) ^ scale)

/-- Conversion of a plain decimal string (optional minus sign, digits,
optional fraction) to an exact rational.  This models Python's float
coercion of the provider's price/volume strings, which are always in this
plain-decimal shape. -/
def parseDecimal (s : String) : Option ℚ :=
  let cs := s.toList
  let p : Bool × List Char :=
    match cs with
    | '-' :: rest => (true, rest)
    | _ => (false, cs)
  let ipChars := p.2.takeWhile (· != '.')
  match digitsVal ipChars with
  | none => none
  | some ip =>
    match p.2.dropWhile (· != '.') with
    | [] => some (decimalVal p.1 ip 0 0)
    | _ :: fracChars =>
      match digitsVal fracChars with
      | none => none
      | some fp => some (decimalVal p.1 ip fp fracChars.length)

/-- Conversion of one provider row to a persisted record, field by field as
in `_save_klines`: position 0 becomes `open_time`
(`datetime.fromtimestamp(kline[0]/1000)`, i.e. the same instant), positions
1-5 the prices and volume, 6 `close_time`, 7 the quote asset volume, 8 the
trade count and 9-10 the taker buy volumes.  `none` models a row whose
numeric string fields are not plain decimals. -/
def kline_from_raw (symbol interval : String) (k : RawKline) : Option Kline := do
  let o ← parseDecimal k.open_str
  let h ← parseDecimal k.high_str
  let l ← parseDecimal k.low_str
  let c ← parseDecimal k.close_str
  let v ← parseDecimal k.volume_str
  let qav ← parseDecimal k.quote_asset_volume_str
  let tb ← parseDecimal k.taker_buy_base_str
  let tq ← parseDecimal k.taker_buy_quote_str
  some { symbol := symbol, interval := interval, open_time := k.open_time_ms,
         open_ := o, high := h, low := l, close := c, volume := v,
         close_time := k.close_time_ms, quote_asset_volume := qav,
         num_trades := k.num_trades, taker_buy_base_asset_volume := tb,
         taker_buy_quote_asset_volume := tq }

/-- Conversion of a whole page of provider rows to persisted records. -/
def klines_from_raw (symbol interval : String) :
    List RawKline → Option (List Kline)
  | [] => some []
  | k :: ks =>
    match kline_from_raw symbol interval k with
    | none => none
    | some nk =>
      match klines_from_raw symbol interval ks with
      | none => none
      | some nks => some (nk :: nks)

/-- Model of `DatabaseManager._save_klines`: each row of the page is
converted and appended to the store in page order (`session.add` per row,
one commit).  The store is the list of inserted rows in insertion order. -/
def save_klines (symbol interval : String) (store : List Kline) :
    List RawKline → Option (List Kline)
  | [] => some store
  | k :: ks =>
    match kline_from_raw symbol interval k with
    | none => none
    | some nk => save_klines symbol interval (store ++ [nk]) ks

/-- Provider page-size cap, `klines_max_limit = 1500` in `_get_klines`. -/
def klines_max_limit : ℕ := 1500

/-- Marker for the source's `math.floor` on millisecond instants.  The model
restricts instants to whole milliseconds, where flooring is the identity; the
marker is kept at exactly the program points where the source floors. -/
def floor_ms (t : ℤ) : ℤ := t

/-- Model of `DatabaseManager._get_next_klines_start_time` with the interval
duration already converted to milliseconds (`interval_in_ms` below performs
the conversion the source inlines): steps `klines_limit` buckets forward, or
backward when `reverse` is set. -/
def next_klines_start_time (interval_ms last_time : ℤ) (klines_limit : ℕ)
    (reverse : Bool) : ℤ :=
  if !reverse then last_time + interval_ms * klines_limit
  else last_time - interval_ms * klines_limit

/-- Outcome of one fill pass of `_get_klines`: the client calls issued (start
and end of each requested window, in order), the number of `_save_klines`
invocations, and the resulting store. -/
structure PassResult where
  calls : List (ℤ × ℤ)
  saves : ℕ
  store : List Kline
deriving DecidableEq, Repr

/-- Backward (`reverse=True`) arm of the `while True` loop in
`DatabaseManager._get_klines`.  `start_time` is the loop variable (preset to
the anchor `end_time_ms_since_utc` before the first iteration).  Each
iteration sets the window end to the previous start, steps the start back by
`klines_max_limit` buckets, floors both bounds, and fetches; a non-empty page
is saved and the loop continues from the new (earlier) start, while an empty
or absent page terminates the pass. -/
def get_klines_reverse (fetch : ℤ → ℤ → Option (List RawKline))
    (symbol interval : String) (ims : ℤ) :
    ℕ → ℤ → List (ℤ × ℤ) → ℕ → List Kline → RunResult PassResult
  | 0, _, _, _, _ => RunResult.outOfFuel
  | fuel + 1, start_time, calls, saves, store =>
    let end_time := start_time
    let start_time' := next_klines_start_time ims start_time klines_max_limit true
    let s := floor_ms start_time'
    let e := floor_ms end_time
    match fetch s e with
    | some (kl :: kls) =>
      match save_klines symbol interval store (kl :: kls) with
      | some store' =>
        get_klines_reverse fetch symbol interval ims fuel s
          (calls ++ [(s, e)]) (saves + 1) store'
      | none => RunResult.pyError (PyError.valueError "invalid numeric field")
    | _ => RunResult.ok ⟨calls ++ [(s, e)], saves, store⟩

/-- Forward (`reverse=False`) arm of the `while True` loop in
`DatabaseManager._get_klines`.  `end_time` is the loop variable (initially
the anchor).  Each iteration sets the window start one bucket after the
previous end and the window end `klines_max_limit` buckets later, re-reads
the wall clock (`clock k` is the value of the `k`-th
`datetime.now().timestamp()*1000` read of the pass), breaks without a client
call when the start exceeds the clock, clamps the end to the clock, floors
both bounds and fetches; a non-empty page is saved and the loop continues,
while an empty or absent page terminates the pass. -/
def get_klines_forward (fetch : ℤ → ℤ → Option (List RawKline))
    (symbol interval : String) (ims : ℤ) (clock : ℕ → ℤ) :
    ℕ → ℕ → ℤ → List (ℤ × ℤ) → ℕ → List Kline → RunResult PassResult
  | 0, _, _, _, _, _ => RunResult.outOfFuel
  | fuel + 1, k, end_time, calls, saves, store =>
    let start_time := next_klines_start_time ims end_time 1 false
    let end_time' := next_klines_start_time ims start_time klines_max_limit false
    let current_time := floor_ms (clock k)
    if start_time > current_time then RunResult.ok ⟨calls, saves, store⟩
    else
      let end_time'' := if end_time' > current_time then current_time else end_time'
      let s := floor_ms start_time
      let e := floor_ms end_time''
      match fetch s e with
      | some (kl :: kls) =>
        match save_klines symbol interval store (kl :: kls) with
        | some store' =>
          get_klines_forward fetch symbol interval ims clock fuel (k + 1) e
            (calls ++ [(s, e)]) (saves + 1) store'
        | none => RunResult.pyError (PyError.valueError "invalid numeric field")
      | _ => RunResult.ok ⟨calls ++ [(s, e)], saves, store⟩

/-- Model of `DatabaseManager._get_klines`: dispatches on `reverse`; in the
backward direction the loop's start variable is preset to the passed
`end_time_ms` anchor. -/
def db_get_klines (fetch : ℤ → ℤ → Option (List RawKline))
    (symbol interval : String) (ims : ℤ) (clock : ℕ → ℤ)
    (end_time_ms : ℤ) (reverse : Bool) (fuel : ℕ) (store : List Kline) :
    RunResult PassResult :=
  if reverse then
    get_klines_reverse fetch symbol interval ims fuel end_time_ms [] 0 store
  else
    get_klines_forward fetch symbol interval ims clock fuel 0 end_time_ms [] 0 store

/-- Rows of the store for one (symbol, interval) partition. -/
def matching_klines (store : List Kline) (symbol interval : String) :
    List Kline :=
  store.filter fun k0 => k0.symbol == symbol && k0.interval == interval

/-- Store query `ORDER BY open_time` followed by `.first()`: a matching row
of minimal `open_time` (the first such row in insertion order), or `none`
when the partition is empty. -/
def earliest_entry (store : List Kline) (symbol interval : String) :
    Option Kline :=
  (matching_klines store symbol interval).foldl
    (fun acc k0 =>
      match acc with
      | none => some k0
      | some b => if k0.open_time < b.open_time then some k0 else some b)
    none

/-- Store query `ORDER BY open_time DESC` followed by `.first()`: a matching
row of maximal `open_time`, or `none` when the partition is empty. -/
def latest_entry (store : List Kline) (symbol interval : String) :
    Option Kline :=
  (matching_klines store symbol interval).foldl
    (fun acc k0 =>
      match acc with
      | none => some k0
      | some b => if k0.open_time > b.open_time then some k0 else some b)
    none

/-- Outcome of `_get_missing_klines` for one (symbol, interval) pair: the
calls of the backward pass, the calls of the forward pass, the total number
of `_save_klines` invocations, and the resulting store. -/
structure SyncResult where
  back_calls : List (ℤ × ℤ)
  fwd_calls : List (ℤ × ℤ)
  saves : ℕ
  store : List Kline
deriving DecidableEq, Repr

/-- Backward-pass anchor chosen by `_get_missing_klines`: the current wall
clock (`now_ms`, the `datetime.now().timestamp()*1000` read of that
function) when no row is stored for the pair, else one bucket before the
earliest stored row's `open_time`. -/
def back_fill_anchor (store : List Kline) (symbol interval : String)
    (ims now_ms : ℤ) : ℤ :=
  match earliest_entry store symbol interval with
  | none => now_ms
  | some first => next_klines_start_time ims first.open_time 1 true

/-- Model of `DatabaseManager._get_missing_klines` proper: runs the backward
pass from the anchor, re-queries the latest stored row and reads its
`open_time` — the source performs this attribute access without a `None`
check, so an empty query result raises `AttributeError` — then runs the
forward pass anchored there. -/
def get_missing_klines (fetch : ℤ → ℤ → Option (List RawKline))
    (symbol interval : String) (ims : ℤ) (now_ms : ℤ) (clock : ℕ → ℤ)
    (fuel : ℕ) (store : List Kline) : RunResult SyncResult :=
  match get_klines_reverse fetch symbol interval ims fuel
      (back_fill_anchor store symbol interval ims now_ms) [] 0 store with
  | RunResult.outOfFuel => RunResult.outOfFuel
  | RunResult.pyError e => RunResult.pyError e
  | RunResult.ok back =>
    match latest_entry back.store symbol interval with
    | none => RunResult.pyError (PyError.attributeError "open_time")
    | some last =>
      match get_klines_forward fetch symbol interval ims clock fuel 0
          last.open_time [] 0 back.store with
      | RunResult.outOfFuel => RunResult.outOfFuel
      | RunResult.pyError e => RunResult.pyError e
      | RunResult.ok fwd =>
        RunResult.ok ⟨back.calls, fwd.calls, back.saves + fwd.saves, fwd.store⟩

/-- Symbol allow-list `DatabaseManager._valid_symbols`. -/
def valid_symbols : List String := ["BTCUSDT", "SHIBUSDT", "ETHUSDT"]

/-- Interval enumeration `DatabaseManager._valid_intervals`. -/
def valid_intervals : List String :=
  ["1m", "3m", "5m", "15m", "30m", "1h", "2h", "4h", "6h", "8h", "12h",
   "1d", "3d", "1w", "1M"]

/-- Interval-unit durations `DatabaseManager._seconds_per_interval`. -/
def seconds_per_interval (u : Char) : Option ℕ :=
  [('m', 60), ('h', 60 * 60), ('d', 24 * 60 * 60), ('w', 7 * 24 * 60 * 60),
   ('M', 28 * 24 * 60 * 60)].lookup u

/-- Interval duration in milliseconds,
`int(interval[:-1]) * _seconds_per_interval[interval[-1]] * 1000` as inlined
in `_get_next_klines_start_time`; `none` models the exceptions an invalid
token would raise. -/
def interval_in_ms (interval : String) : Option ℤ :=
  match digitsVal (interval.toList.dropLast) with
  | none => none
  | some mult =>
    match interval.toList.getLast? with
    | none => none
    | some u =>
      match seconds_per_interval u with
      | none => none
      | some secs => some ((mult * secs : ℕ) * 1000)

/-- Whitespace skipping for the JSON list parser. -/
def json_ws (cs : List Char) : List Char :=
  cs.dropWhile fun c => c == ' ' || c == '\t' || c == '\n' || c == '\r'

/-- One JSON string literal (no escape sequences, as in the configuration
values this program reads). -/
def json_take_string : List Char → Option (String × List Char)
  | [] => none
  | c :: cs =>
    if c = '"' then
      match cs.dropWhile (· != '"') with
      | _ :: rest => some (String.mk (cs.takeWhile (· != '"')), rest)
      | [] => none
    else none

/-- Comma-separated JSON string items up to the closing bracket. -/
def json_items : ℕ → List Char → Option (List String)
  | 0, _ => none
  | fuel + 1, cs =>
    match json_take_string (json_ws cs) with
    | none => none
    | some (s, rest) =>
      match json_ws rest with
      | ']' :: rest2 => if (json_ws rest2).isEmpty then some [s] else none
      | ',' :: rest2 =>
        match json_items fuel rest2 with
        | some ss => some (s :: ss)
        | none => none
      | _ => none

/-- Model of `json.loads` restricted to the shape `update_klines` consumes: a
JSON array of plain string literals.  `none` models the decode exceptions. -/
def json_string_list (s : String) : Option (List String) :=
  match json_ws s.toList with
  | '[' :: rest =>
    match json_ws rest with
    | ']' :: rest2 => if (json_ws rest2).isEmpty then some [] else none
    | rest2 => json_items (rest2.length + 1) rest2
  | _ => none

/-- Model of the pair-selection logic of `DatabaseManager.update_klines`:
both arguments are decoded with `json.loads`; each symbol is upper-cased and
checked against the allow-list (invalid ones skipped); each interval is
checked, case-sensitively, against the interval enumeration (invalid ones
skipped); the result lists, in order, the (symbol, interval) pairs for which
`_get_missing_klines` is invoked. -/
def update_klines_pairs (symbols_json intervals_json : String) :
    Option (List (String × String)) :=
  match json_string_list symbols_json with
  | none => none
  | some symbols =>
    match json_string_list intervals_json with
    | none => none
    | some intervals =>
      some (symbols.flatMap fun symbol =>
        let symbol := str_upper symbol
        if valid_symbols.contains symbol then
          intervals.flatMap fun interval =>
            if valid_intervals.contains interval then [(symbol, interval)]
            else []
        else [])

/-- Provider-error signal raised by the client library
(`binance.error.ClientError`). -/
structure ClientError where
  status_code : ℤ
  error_code : ℤ
  error_message : String
  header : List (String × String)
  error_data : String
deriving DecidableEq, Repr

/-- Mutable state of `ClientManager` relevant to the backoff policy.  The
source assigns the attribute `_client_error_code` (modelled by
`client_error_code_set`) but the `match` in `_handle_client_error` reads the
distinct attribute `client_error_code` (modelled by `client_error_code_read`),
which no code path ever assigns; both start unassigned (`none`). -/
structure ClientManagerState where
  x_mbx_used_weight : String
  x_mbx_used_weight_1m : String
  client_error_retry_wait_time_s : ℤ
  client_error_restart_time : ℤ
  client_error_http_status_code : Option ℤ
  client_error_code_set : Option ℤ
  client_error_code_read : Option ℤ
  client_error_message : Option String
  client_error_header : Option (List (String × String))
  client_error_error_data : Option String
deriving DecidableEq, Repr

/-- State after `ClientManager.__init__` (weights start at `0`, no client
error recorded, no retry wait pending). -/
def clientManagerInit : ClientManagerState :=
  { x_mbx_used_weight := "0", x_mbx_used_weight_1m := "0",
    client_error_retry_wait_time_s := 0, client_error_restart_time := 0,
    client_error_http_status_code := none, client_error_code_set := none,
    client_error_code_read := none, client_error_message := none,
    client_error_header := none, client_error_error_data := none }

/-- Model of `ClientManager._update_weights`: copies the two usage headers
into the state; a missing first key leaves both unchanged (the `KeyError` is
caught and logged), a missing second key leaves only the first updated, as
the assignments run in order. -/
def update_weights (st : ClientManagerState)
    (limit_usage : List (String × String)) : ClientManagerState :=
  match limit_usage.lookup "x-mbx-used-weight" with
  | none => st
  | some w =>
    let st' := { st with x_mbx_used_weight := w }
    match limit_usage.lookup "x-mbx-used-weight-1m" with
    | none => st'
    | some w1 => { st' with x_mbx_used_weight_1m := w1 }

/-- Model of `ClientManager._can_make_request` at instant `now` (epoch
milliseconds): when a retry wait is pending, the gate reopens — and resets
the wait to zero — only when `now` is strictly past the recorded restart
time; otherwise it refuses.  With no pending wait it always permits. -/
def can_make_request (st : ClientManagerState) (now : ℤ) :
    Bool × ClientManagerState :=
  if st.client_error_retry_wait_time_s > 0 then
    if now > st.client_error_restart_time then
      (true, { st with client_error_retry_wait_time_s := 0 })
    else (false, st)
  else (true, st)

/-- Model of `ClientManager._handle_client_error_1003`: reads the integer
`retry-after` header, records the wait and the restart instant
`now + retry_after` (`timedelta(seconds=...)`, hence `1000 *` in
milliseconds), then forwards the two usage headers to `_update_weights`;
missing headers raise `KeyError`, a non-integer `retry-after` raises
`ValueError`. -/
def handle_client_error_1003 (st : ClientManagerState) (now : ℤ) :
    Except PyError ClientManagerState :=
  match st.client_error_header with
  | none => Except.error (PyError.attributeError "_client_error_header")
  | some header =>
    match header.lookup "retry-after" with
    | none => Except.error (PyError.keyError "retry-after")
    | some ra =>
      match parse_int ra with
      | none => Except.error (PyError.valueError "invalid literal for int")
      | some wait =>
        let st' := { st with client_error_retry_wait_time_s := wait,
                             client_error_restart_time := now + 1000 * wait }
        match header.lookup "x-mbx-used-weight" with
        | none => Except.error (PyError.keyError "x-mbx-used-weight")
        | some w =>
          match header.lookup "x-mbx-used-weight-1m" with
          | none => Except.error (PyError.keyError "x-mbx-used-weight-1m")
          | some w1 =>
            Except.ok (update_weights st'
              [("x-mbx-used-weight", w), ("x-mbx-used-weight-1m", w1)])

/-- Model of `ClientManager._handle_client_error`: records the error's
fields on the `_client_error_*` attributes, then dispatches on the attribute
`client_error_code` — which, never having been assigned (only
`_client_error_code` is), raises `AttributeError` before any case is
reached.  The case arms mirror the source: every code other than `-1003` is
a `pass`. -/
def handle_client_error (st : ClientManagerState) (now : ℤ) (e : ClientError) :
    Except PyError ClientManagerState :=
  let st' := { st with
    client_error_http_status_code := some e.status_code,
    client_error_code_set := some e.error_code,
    client_error_message := some e.error_message,
    client_error_header := some e.header,
    client_error_error_data := some e.error_data }
  match st'.client_error_code_read with
  | none => Except.error (PyError.attributeError "client_error_code")
  | some code =>
    if code = -1001 then Except.ok st'
    else if code = -1002 then Except.ok st'
    else if code = -1003 then handle_client_error_1003 st' now
    else if code = -1004 then Except.ok st'
    else if code = -1007 then Except.ok st'
    else if code = -1008 then Except.ok st'
    else Except.ok st'

/-- Response of `self.client.klines(...)` when no exception is raised: a
dictionary that may carry `limit_usage` and `data` entries
(`show_limit_usage` mode of the client library). -/
structure BinanceResult where
  limit_usage : Option (List (String × String))
  data : Option (List RawKline)
deriving DecidableEq, Repr

/-- Model of `ClientManager.get_klines` at instant `now`.  `response` is the
behaviour of the external provider call; the returned `Bool` records whether
that call was made.  When the permission gate refuses, the function skips
the action and falls through returning `None`; a `ClientError` is routed to
`_handle_client_error` and the fetch returns `None`; otherwise the usage
weights are updated when present and the `data` entry (or `None`) is
returned. -/
def cm_get_klines (st : ClientManagerState) (now : ℤ)
    (response : Except ClientError BinanceResult) :
    Except PyError (Option (List RawKline) × ClientManagerState × Bool) :=
  match can_make_request st now with
  | (true, st1) =>
    match response with
    | Except.error e =>
      match handle_client_error st1 now e with
      | Except.error pe => Except.error pe
      | Except.ok st2 => Except.ok (none, st2, true)
    | Except.ok result =>
      let st2 := match result.limit_usage with
        | some lu => update_weights st1 lu
        | none => st1
      Except.ok (result.data, st2, true)
  | (false, st1) => Except.ok (none, st1, false)

/-- Provider behaviour backed by a fixed dataset `D`: a fetch for the window
`[s, e]` returns the rows whose `open_time` lies in the window (both bounds
inclusive, as in the provider's `startTime`/`endTime` parameters), capped at
the page limit. -/
def fetch_of_data (D : List RawKline) (s e : ℤ) : Option (List RawKline) :=
  some ((D.filter fun r =>
    decide (s ≤ r.open_time_ms) && decide (r.open_time_ms ≤ e)).take
      klines_max_limit)

/-- Days between 1970-01-01 and the civil date `y-m-d` (proleptic Gregorian
calendar), used only to give meaning to the UTC timestamp literals appearing
in the claims. -/
def days_from_civil (y m d : ℕ) : ℤ :=
  let y' := if m ≤ 2 then y - 1 else y
  let era := y' / 400
  let yoe := y' % 400
  let doy := (153 * (if m > 2 then m - 3 else m + 9) + 2) / 5 + (d - 1)
  let doe := yoe * 365 + yoe / 4 - yoe / 100 + doy
  (era * 146097 + doe : ℤ) - 719468

/-- Epoch milliseconds of a UTC calendar instant. -/
def epoch_ms_of_utc (y mo d h mi s : ℕ) : ℤ :=
  (days_from_civil y mo d * 86400 + h * 3600 + mi * 60 + s) * 1000

/-- Literal provider row named by the row-field-mapping property. -/
def c8raw : RawKline :=
  ⟨1700000000000, "100.0", "101.0", "99.5", "100.5", "10.0", 1700000059999,
   "1005.0", 5, "4.0", "402.0", ""⟩

/-- A well-formed sample provider row with open time `t`, used as page
content in concrete scenarios. -/
def raw_sample (t : ℤ) : RawKline :=
  ⟨t, "1", "2", "0.5", "1.5", "10", t + 59999, "100", 3, "4", "40", ""⟩

/-- Persisted form of `raw_sample 1000` under pair (BTCUSDT, 1m). -/
def kline_sample : Kline :=
  ⟨"BTCUSDT", "1m", 1000, 1, 2, 1 / 2, 3 / 2, 10, 60999, 100, 3, 4, 40⟩

/-- Throttling error fixture: code `-1003`, HTTP 429, with `retry-after` and
usage headers. -/
def c4error : ClientError :=
  ⟨429, -1003, "Too many requests", [("retry-after", "60"),
   ("x-mbx-used-weight", "1200"), ("x-mbx-used-weight-1m", "1200")], ""⟩

/-- Non-throttling (transient) error fixture: code `-1001`, disconnected. -/
def c5error : ClientError :=
  ⟨500, -1001, "Disconnected", [], ""⟩

/-- Client-manager state suspended with restart instant 100 and a pending
60-second retry wait. -/
def c3state : ClientManagerState :=
  { clientManagerInit with client_error_retry_wait_time_s := 60,
                           client_error_restart_time := 100 }

/-- Provider response carrying neither usage data nor rows. -/
def emptyResult : BinanceResult := ⟨none, none⟩

/-- Provider behaviour for the backward-pass scenario: one non-empty page at
the first window of anchor 1700000000000 with interval 1m, empty before. -/
def fetchC1 (s _e : ℤ) : Option (List RawKline) :=
  if s = 1699910000000 then some [raw_sample 1000] else some []

/-- Page function for the backward-pass scenario. -/
def pagesC1 (_i : ℕ) : List RawKline := [raw_sample 1000]

/-- Provider behaviour for the forward-pass scenario anchored at 0 with
interval 1m: non-empty pages at each of the three expected windows. -/
def fetchC2 (s _e : ℤ) : Option (List RawKline) :=
  if s = 60000 || s = 90120000 || s = 180180000 then some [raw_sample 1000]
  else some []

/-- One-row store for pair (BTCUSDT, 1m), matching the one-row provider
dataset `[raw_sample 1000]`. -/
def c6store : List Kline := [kline_sample]

/-- Unrolling of the per-row insert loop of `_save_klines`: saving a page
appends its converted rows, in page order, to the store, and fails exactly
when some row fails to convert. -/
theorem save_klines_eq_map (symbol interval : String) (page : List RawKline) :
    ∀ store : List Kline, save_klines symbol interval store page =
      (klines_from_raw symbol interval page).map (fun new => store ++ new) := by
  induction page with
  | nil => intro store; simp [save_klines, klines_from_raw]
  | cons k ks ih =>
    intro store
    simp only [save_klines, klines_from_raw]
    cases h : kline_from_raw symbol interval k with
    | none => simp
    | some nk =>
      dsimp only
      rw [ih (store ++ [nk])]
      cases hks : klines_from_raw symbol interval ks with
      | none => simp
      | some qs => simp

/-- C4.  Code bug: a provider call raising a client error with code `-1003`
does not set the suspension deadline and does not return an absent page;
`_handle_client_error` assigns `_client_error_code` but dispatches on the
never-assigned attribute `client_error_code`, so the handler raises
`AttributeError` before reaching the `-1003` case and the exception
propagates out of `get_klines`.  The third conjunct shows that the
unreachable `_handle_client_error_1003` would, if reached, record the
60-second wait, the restart instant `now + 60 s`, and both usage weights as
the claim describes. -/
theorem c4_throttling_error_crashes_handler :
    cm_get_klines clientManagerInit 1000 (Except.error c4error) =
      Except.error (PyError.attributeError "client_error_code") ∧
    handle_client_error clientManagerInit 1000 c4error =
      Except.error (PyError.attributeError "client_error_code") ∧
    (handle_client_error_1003
        { clientManagerInit with client_error_header := some c4error.header }
        1000).toOption.map
      (fun st => (st.client_error_retry_wait_time_s,
                  st.client_error_restart_time,
                  st.x_mbx_used_weight, st.x_mbx_used_weight_1m)) =
      some (60, 61000, "1200", "1200") :=
  ⟨rfl, rfl, rfl⟩

/-- C5.  Code bug: a non-throttling provider error (here code `-1001`,
disconnected) is not surfaced to the caller as an absent page; the
never-assigned attribute `client_error_code` read by `_handle_client_error`
raises `AttributeError`, which propagates out of `get_klines` (and hence
through `_get_klines`, `_get_missing_klines` and `update_klines`, aborting
the synchronization of all remaining pairs). -/
theorem c5_transient_error_crashes_not_absent_page :
    cm_get_klines clientManagerInit 2000 (Except.error c5error) =
      Except.error (PyError.attributeError "client_error_code") ∧
    handle_client_error clientManagerInit 2000 c5error =
      Except.error (PyError.attributeError "client_error_code") :=
  ⟨rfl, rfl⟩

/-- C3 counterexample.  In the suspended state with restart instant
`t = 100`, a permission check exactly at instant `t` returns `false`
(the source compares with strict `datetime.now() > restart_time`), refuting
the claim that the first permission check at or after `t` returns true. -/
theorem c3_counterexample :
    0 < c3state.client_error_retry_wait_time_s ∧
    c3state.client_error_restart_time = 100 ∧
    (can_make_request c3state 100).1 = false := by decide

/-- C3 (amended).  Whenever the client manager is suspended with restart
instant `t`, every call gated through the permission check at or before `t`
is refused — the provider client is not invoked and the fetch returns an
absent page with the state unchanged; the first permission check strictly
after `t` returns true and resets the retry-wait tracking to zero, after
which every permission check permits. -/
theorem c3_amended_suspension_gate (st : ClientManagerState) (t now : ℤ)
    (response : Except ClientError BinanceResult)
    (hsusp : 0 < st.client_error_retry_wait_time_s)
    (ht : st.client_error_restart_time = t) :
    (now ≤ t → cm_get_klines st now response = Except.ok (none, st, false)) ∧
    (t < now →
      can_make_request st now =
        (true, { st with client_error_retry_wait_time_s := 0 })) ∧
    (∀ now' : ℤ,
      (can_make_request
        { st with client_error_retry_wait_time_s := 0 } now').1 = true) := by
  refine ⟨?_, ?_, ?_⟩
  · intro h
    have hgate : can_make_request st now = (false, st) := by
      unfold can_make_request
      rw [if_pos hsusp, ht, if_neg (not_lt.mpr h)]
    unfold cm_get_klines
    rw [hgate]
  · intro h
    unfold can_make_request
    rw [if_pos hsusp, ht, if_pos h]
  · intro now'
    unfold can_make_request
    simp

/-- Closed instance of the amended C3 statement at the suspended state
`c3state` (restart instant 100), checked at instant 90. -/
theorem c3_amended_suspension_gate_witness :
    0 < c3state.client_error_retry_wait_time_s ∧
    (((90 : ℤ) ≤ 100 →
        cm_get_klines c3state 90 (Except.ok emptyResult) =
          Except.ok (none, c3state, false)) ∧
     ((100 : ℤ) < 90 →
        can_make_request c3state 90 =
          (true, { c3state with client_error_retry_wait_time_s := 0 })) ∧
     (∀ now' : ℤ,
        (can_make_request
          { c3state with client_error_retry_wait_time_s := 0 } now').1 =
          true)) :=
  ⟨by decide,
   c3_amended_suspension_gate c3state 100 90 (Except.ok emptyResult)
     (by decide) rfl⟩

/-- C9.  The recorded usage weights never influence call permission: with no
retry wait pending, the permission check returns true no matter what the
weight fields hold, and `_update_weights` never touches the retry wait or
the restart instant (so weight usage alone never enters suspension). -/
theorem c9_weights_never_gate (st : ClientManagerState) (now : ℤ)
    (w w1 : String) (lu : List (String × String))
    (h : st.client_error_retry_wait_time_s = 0) :
    (can_make_request
      { st with x_mbx_used_weight := w, x_mbx_used_weight_1m := w1 } now).1 =
      true ∧
    (update_weights st lu).client_error_retry_wait_time_s =
      st.client_error_retry_wait_time_s ∧
    (update_weights st lu).client_error_restart_time =
      st.client_error_restart_time := by
  refine ⟨?_, ?_, ?_⟩
  · simp [can_make_request, h]
  · unfold update_weights
    cases hx : lu.lookup "x-mbx-used-weight" with
    | none => rfl
    | some v =>
      cases hy : lu.lookup "x-mbx-used-weight-1m" with
      | none => rfl
      | some v1 => rfl
  · unfold update_weights
    cases hx : lu.lookup "x-mbx-used-weight" with
    | none => rfl
    | some v =>
      cases hy : lu.lookup "x-mbx-used-weight-1m" with
      | none => rfl
      | some v1 => rfl

/-- Closed instance of C9: from the initial state with the weight fields
forced to a huge value, the permission check still permits. -/
theorem c9_weights_never_gate_witness :
    clientManagerInit.client_error_retry_wait_time_s = 0 ∧
    ((can_make_request
        { clientManagerInit with x_mbx_used_weight := "999999999",
                                 x_mbx_used_weight_1m := "999999999" } 0).1 =
        true ∧
     (update_weights clientManagerInit
        [("x-mbx-used-weight", "999999999")]).client_error_retry_wait_time_s =
        clientManagerInit.client_error_retry_wait_time_s ∧
     (update_weights clientManagerInit
        [("x-mbx-used-weight", "999999999")]).client_error_restart_time =
        clientManagerInit.client_error_restart_time) :=
  ⟨rfl,
   c9_weights_never_gate clientManagerInit 0 "999999999" "999999999"
     [("x-mbx-used-weight", "999999999")] rfl⟩

/-- C7 counterexample.  With an initially empty store and a provider whose
very first backward fetch returns no data, the backward pass inserts
nothing, the re-query for the latest stored row yields no row, and reading
`last_klines_entry.open_time` raises `AttributeError` — refuting the claim
that the forward-anchor read never fails. -/
theorem c7_counterexample :
    get_missing_klines (fun _ _ => some []) "BTCUSDT" "1m" 60000
      1700000000000 (fun _ => 0) 5 [] =
      RunResult.pyError (PyError.attributeError "open_time") := rfl

/-- C8.  Row field mapping of `_save_klines` on the literal provider row
`[1700000000000, "100.0","101.0","99.5","100.5","10.0",1700000059999,
"1005.0",5,"4.0","402.0"]` for interval 1m: position 0 becomes `open_time`
= 2023-11-14T22:13:20Z, positions 1-4 the open/high/low/close prices
(`close` = 100.5), 5 the volume, 6 `close_time`, 7 the quote asset volume,
8 `num_trades` = 5, and 9-10 the taker buy volumes; `close_time` minus
`open_time` is 59999 ms, approximately (within one 1m bucket of) 60
seconds. -/
theorem c8_save_klines_row_field_mapping :
    ∃ K : Kline, save_klines "BTCUSDT" "1m" [] [c8raw] = some [K] ∧
      K.symbol = "BTCUSDT" ∧ K.interval = "1m" ∧
      K.open_time = epoch_ms_of_utc 2023 11 14 22 13 20 ∧
      K.open_ = 100 ∧ K.high = 101 ∧ K.low = 99.5 ∧ K.close = 100.5 ∧
      K.volume = 10 ∧ K.close_time = 1700000059999 ∧
      K.quote_asset_volume = 1005 ∧ K.num_trades = 5 ∧
      K.taker_buy_base_asset_volume = 4 ∧
      K.taker_buy_quote_asset_volume = 402 ∧
      K.close_time - K.open_time = 59999 ∧
      |(K.close_time - K.open_time) - 60 * 1000| < 60 * 1000 ∧
      interval_in_ms "1m" = some (60 * 1000) := by
  refine ⟨⟨"BTCUSDT", "1m", 1700000000000,
           decimalVal false 100 0 1, decimalVal false 101 0 1,
           decimalVal false 99 5 1, decimalVal false 100 5 1,
           decimalVal false 10 0 1, 1700000059999,
           decimalVal false 1005 0 1, 5,
           decimalVal false 4 0 1, decimalVal false 402 0 1⟩,
         rfl, rfl, rfl, by decide, ?_, ?_, ?_, ?_, ?_, rfl, ?_, rfl, ?_, ?_,
         by decide, by decide, rfl⟩
  all_goals norm_num [decimalVal]

/-- C10.  `update_klines` decodes its arguments as JSON lists and
upper-cases each symbol before the allow-list check, so the lowercase
spelling `btcusdt` is synchronized; interval tokens are matched
case-sensitively, so the wrong-case `1H` is skipped while `1m` and `1M`
denote distinct intervals with distinct durations. -/
theorem c10_update_klines_case_handling :
    update_klines_pairs "[\"btcusdt\"]" "[\"1m\", \"1H\", \"1M\"]" =
      some [("BTCUSDT", "1m"), ("BTCUSDT", "1M")] ∧
    update_klines_pairs "[\"btcusdt\"]" "[\"1h\"]" =
      some [("BTCUSDT", "1h")] ∧
    update_klines_pairs "not json" "[\"1m\"]" = none ∧
    interval_in_ms "1m" = some 60000 ∧
    interval_in_ms "1M" = some 2419200000 :=
  ⟨rfl, rfl, rfl, rfl, rfl⟩

/-- Reverse-direction window-start computation of the source, unfolded. -/
theorem next_klines_start_time_reverse (ims X : ℤ) (n : ℕ) :
    next_klines_start_time ims X n true = X - ims * n := by
  simp [next_klines_start_time]

/-- Forward-direction window computation of the source, unfolded. -/
theorem next_klines_start_time_forward (ims X : ℤ) (n : ℕ) :
    next_klines_start_time ims X n false = X + ims * n := by
  simp [next_klines_start_time]

/-- Run of the backward loop over `k` non-empty, convertible pages followed
by one empty or absent page: characterizes the exact windows called, the
save count and the final store, for arbitrary initial accumulators. -/
theorem get_klines_reverse_run (fetch : ℤ → ℤ → Option (List RawKline))
    (symbol interval : String) (ims : ℤ) :
    ∀ (k : ℕ) (E : ℤ) (pages : ℕ → List RawKline) (fuel : ℕ)
      (calls : List (ℤ × ℤ)) (saves : ℕ) (store : List Kline),
      k < fuel →
      (∀ i, i < k →
        fetch (E - ((i : ℤ) + 1) * (1500 * ims)) (E - (i : ℤ) * (1500 * ims)) =
          some (pages i) ∧ pages i ≠ [] ∧
        (klines_from_raw symbol interval (pages i)).isSome = true) →
      (fetch (E - ((k : ℤ) + 1) * (1500 * ims)) (E - (k : ℤ) * (1500 * ims)) =
          some [] ∨
       fetch (E - ((k : ℤ) + 1) * (1500 * ims)) (E - (k : ℤ) * (1500 * ims)) =
          none) →
      get_klines_reverse fetch symbol interval ims fuel E calls saves store =
        RunResult.ok
          ⟨calls ++ (List.range (k + 1)).map
              (fun i : ℕ => (E - ((i : ℤ) + 1) * (1500 * ims),
                         E - (i : ℤ) * (1500 * ims))),
           saves + k,
           store ++ ((List.range k).map
              (fun i => (klines_from_raw symbol interval (pages i)).getD
                [])).flatten⟩ := by
  intro k
  induction k with
  | zero =>
    intro E pages fuel calls saves store hfuel hp hlast
    obtain ⟨f, rfl⟩ : ∃ f, fuel = f + 1 := ⟨fuel - 1, by omega⟩
    rw [show E - (((0 : ℕ) : ℤ) + 1) * (1500 * ims) =
          E - ims * (klines_max_limit : ℤ) by push_cast [klines_max_limit]; ring,
        show E - ((0 : ℕ) : ℤ) * (1500 * ims) = E by push_cast; ring] at hlast
    simp only [get_klines_reverse, next_klines_start_time_reverse, floor_ms]
    rcases hlast with h | h <;> rw [h] <;>
      simp [List.range_succ, klines_max_limit, mul_comm]
  | succ k ih =>
    intro E pages fuel calls saves store hfuel hp hlast
    obtain ⟨f, rfl⟩ : ∃ f, fuel = f + 1 := ⟨fuel - 1, by omega⟩
    have hf0 : fetch (E - ims * (klines_max_limit : ℤ)) E = some (pages 0) := by
      have h0 := (hp 0 (by omega)).1
      rw [show E - (((0 : ℕ) : ℤ) + 1) * (1500 * ims) =
            E - ims * (klines_max_limit : ℤ) by
              push_cast [klines_max_limit]; ring,
          show E - ((0 : ℕ) : ℤ) * (1500 * ims) = E by push_cast; ring] at h0
      exact h0
    obtain ⟨q0, hq0⟩ := Option.isSome_iff_exists.mp (hp 0 (by omega)).2.2
    have hne := (hp 0 (by omega)).2.1
    cases hpg : pages 0 with
    | nil => exact absurd hpg hne
    | cons kl kls =>
      rw [hpg] at hf0 hq0
      have hsave : save_klines symbol interval store (kl :: kls) =
          some (store ++ q0) := by
        rw [save_klines_eq_map, hq0]; rfl
      simp only [get_klines_reverse, next_klines_start_time_reverse, floor_ms]
      rw [hf0]
      dsimp only
      rw [hsave]
      dsimp only
      rw [show E - ims * (klines_max_limit : ℤ) = E - 1500 * ims by
            push_cast [klines_max_limit]; ring]
      rw [ih (E - 1500 * ims) (fun i => pages (i + 1)) f
          (calls ++ [(E - 1500 * ims, E)]) (saves + 1) (store ++ q0)
          (by omega)
          (fun i hi => by
            have h' := hp (i + 1) (by omega)
            rw [show E - 1500 * ims - ((i : ℤ) + 1) * (1500 * ims) =
                  E - (((i + 1 : ℕ) : ℤ) + 1) * (1500 * ims) by
                    push_cast; ring,
                show E - 1500 * ims - (i : ℤ) * (1500 * ims) =
                  E - ((i + 1 : ℕ) : ℤ) * (1500 * ims) by push_cast; ring]
            exact h')
          (by
            rw [show E - 1500 * ims - ((k : ℤ) + 1) * (1500 * ims) =
                  E - (((k + 1 : ℕ) : ℤ) + 1) * (1500 * ims) by
                    push_cast; ring,
                show E - 1500 * ims - (k : ℤ) * (1500 * ims) =
                  E - ((k + 1 : ℕ) : ℤ) * (1500 * ims) by push_cast; ring]
            exact hlast)]
      simp only [RunResult.ok.injEq, PassResult.mk.injEq]
      refine ⟨?_, by omega, ?_⟩
      · rw [List.append_assoc, List.range_succ_eq_map (k + 1), List.map_cons,
            List.map_map, List.singleton_append]
        congr 1
        congr 1
        · rw [Prod.mk.injEq]
          constructor <;> (push_cast; ring)
        · refine List.map_congr_left fun i _ => ?_
          rw [Function.comp_apply, Prod.mk.injEq]
          constructor <;> (push_cast; ring)
      · rw [List.append_assoc, List.range_succ_eq_map k, List.map_cons,
            List.map_map, List.flatten_cons, hpg, hq0]
        rfl

/-- C1.  Backward fill pass anchored at end-time `E`: for every `i`, the
`i`-th client call (1-indexed) requests the window from
`E − i·(1500·interval_ms)` to `E − (i−1)·(1500·interval_ms)`, both bounds
floored to whole milliseconds; the pass terminates exactly after the first
call that returns an empty or absent page; every earlier non-empty page —
including one with fewer than 1500 rows — is saved and the loop continues
from the earlier window start; and the final store is the original store
extended by the union (in call order) of all non-empty pages' rows. -/
theorem c1_backward_fill_pass (fetch : ℤ → ℤ → Option (List RawKline))
    (symbol interval : String) (ims E : ℤ) (clock : ℕ → ℤ)
    (k fuel : ℕ) (pages : ℕ → List RawKline) (store : List Kline)
    (hfuel : k < fuel)
    (hpages : ∀ i, i < k →
      fetch (floor_ms (E - ((i : ℤ) + 1) * (1500 * ims)))
          (floor_ms (E - (i : ℤ) * (1500 * ims))) = some (pages i) ∧
        pages i ≠ [] ∧
        (klines_from_raw symbol interval (pages i)).isSome = true)
    (hlast :
      fetch (floor_ms (E - ((k : ℤ) + 1) * (1500 * ims)))
          (floor_ms (E - (k : ℤ) * (1500 * ims))) = some [] ∨
      fetch (floor_ms (E - ((k : ℤ) + 1) * (1500 * ims)))
          (floor_ms (E - (k : ℤ) * (1500 * ims))) = none) :
    db_get_klines fetch symbol interval ims clock E true fuel store =
      RunResult.ok
        ⟨(List.range (k + 1)).map
            (fun i : ℕ => (floor_ms (E - ((i : ℤ) + 1) * (1500 * ims)),
                       floor_ms (E - (i : ℤ) * (1500 * ims)))),
         k,
         store ++ ((List.range k).map
            (fun i => (klines_from_raw symbol interval (pages i)).getD
              [])).flatten⟩ := by
  simp only [floor_ms] at hpages hlast ⊢
  simp only [db_get_klines, if_pos]
  rw [get_klines_reverse_run fetch symbol interval ims k E pages fuel [] 0
      store hfuel hpages hlast]
  simp

/-- Closed instance of C1: anchor 1700000000000, interval 1m, one non-empty
(single-row, far below the 1500 cap) page then an empty page: two calls at
the prescribed windows, one save, and the page's row appended to the store. -/
theorem c1_backward_fill_pass_witness :
    ((1 : ℕ) < 3 ∧
     (∀ i : ℕ, i < 1 →
       fetchC1 (floor_ms ((1700000000000 : ℤ) - ((i : ℤ) + 1) * (1500 * 60000)))
           (floor_ms ((1700000000000 : ℤ) - (i : ℤ) * (1500 * 60000))) =
         some (pagesC1 i) ∧
       pagesC1 i ≠ [] ∧
       (klines_from_raw "BTCUSDT" "1m" (pagesC1 i)).isSome = true) ∧
     (fetchC1
          (floor_ms ((1700000000000 : ℤ) - (((1 : ℕ) : ℤ) + 1) * (1500 * 60000)))
          (floor_ms ((1700000000000 : ℤ) - ((1 : ℕ) : ℤ) * (1500 * 60000))) =
        some [] ∨
      fetchC1
          (floor_ms ((1700000000000 : ℤ) - (((1 : ℕ) : ℤ) + 1) * (1500 * 60000)))
          (floor_ms ((1700000000000 : ℤ) - ((1 : ℕ) : ℤ) * (1500 * 60000))) =
        none)) ∧
    db_get_klines fetchC1 "BTCUSDT" "1m" 60000 (fun _ => 0) 1700000000000 true
        3 [] =
      RunResult.ok
        ⟨(List.range (1 + 1)).map
            (fun i : ℕ =>
              (floor_ms ((1700000000000 : ℤ) - ((i : ℤ) + 1) * (1500 * 60000)),
               floor_ms ((1700000000000 : ℤ) - (i : ℤ) * (1500 * 60000)))),
         1,
         [] ++ ((List.range 1).map
            (fun i => (klines_from_raw "BTCUSDT" "1m" (pagesC1 i)).getD
              [])).flatten⟩ :=
  ⟨⟨by decide, by decide, by decide⟩,
   c1_backward_fill_pass fetchC1 "BTCUSDT" "1m" 60000 1700000000000
     (fun _ => 0) 1 3 pagesC1 [] (by decide) (by decide) (by decide)⟩

/-- Clamping `if x > y then y else x` is the minimum. -/
theorem ite_gt_min (X Y : ℤ) : (if X > Y then Y else X) = min X Y := by
  rcases le_or_lt X Y with h | h
  · rw [if_neg (not_lt.mpr h), min_eq_left h]
  · rw [if_pos h, min_eq_right h.le]

/-- Forward loop: as soon as the computed window start exceeds the freshly
read wall clock, the pass terminates with no further client call. -/
theorem get_klines_forward_break (fetch : ℤ → ℤ → Option (List RawKline))
    (symbol interval : String) (ims : ℤ) (clock : ℕ → ℤ) (fuel iter : ℕ)
    (anchor : ℤ) (calls : List (ℤ × ℤ)) (saves : ℕ) (st : List Kline)
    (h : clock iter < anchor + ims) :
    get_klines_forward fetch symbol interval ims clock (fuel + 1) iter anchor
        calls saves st = RunResult.ok ⟨calls, saves, st⟩ := by
  simp only [get_klines_forward, next_klines_start_time_forward, floor_ms]
  rw [if_pos (by push_cast; linarith)]

/-- Forward loop: one full iteration on a non-empty convertible page — the
call window runs from one bucket past the anchor to 1500 buckets later
clamped to the wall clock, the page is saved, and the loop continues from
the window end. -/
theorem get_klines_forward_step (fetch : ℤ → ℤ → Option (List RawKline))
    (symbol interval : String) (ims : ℤ) (clock : ℕ → ℤ) (fuel iter : ℕ)
    (anchor : ℤ) (calls : List (ℤ × ℤ)) (saves : ℕ) (st : List Kline)
    (page : List RawKline) (q : List Kline)
    (hgo : anchor + ims ≤ clock iter)
    (hfetch : fetch (anchor + ims)
        (min (anchor + ims + 1500 * ims) (clock iter)) = some page)
    (hne : page ≠ [])
    (hq : klines_from_raw symbol interval page = some q) :
    get_klines_forward fetch symbol interval ims clock (fuel + 1) iter anchor
        calls saves st =
      get_klines_forward fetch symbol interval ims clock fuel (iter + 1)
        (min (anchor + ims + 1500 * ims) (clock iter))
        (calls ++ [(anchor + ims,
                    min (anchor + ims + 1500 * ims) (clock iter))])
        (saves + 1) (st ++ q) := by
  cases hpg : page with
  | nil => exact absurd hpg hne
  | cons kl kls =>
    rw [hpg] at hfetch hq
    have hsave : save_klines symbol interval st (kl :: kls) =
        some (st ++ q) := by
      rw [save_klines_eq_map, hq]; rfl
    simp only [get_klines_forward, next_klines_start_time_forward, floor_ms]
    rw [if_neg (by push_cast; linarith), ite_gt_min,
        show anchor + ims * ((1 : ℕ) : ℤ) + ims * (klines_max_limit : ℤ) =
          anchor + ims + 1500 * ims by push_cast [klines_max_limit]; ring,
        show anchor + ims * ((1 : ℕ) : ℤ) = anchor + ims by push_cast; ring,
        hfetch]
    dsimp only
    rw [hsave]

/-- C2.  Forward fill pass anchored at the latest stored open time `T`: each
iteration sets the window start one bucket after the previous anchor and the
window end 1500 buckets later, clamped to the freshly re-read wall clock,
and the pass terminates without a further client call as soon as the window
start exceeds the wall clock (first conjunct, for any loop state); in
particular, with the wall clock pinned at `T + 3·(1500·interval_ms)` and
provider data present, exactly three windowed calls are issued at the
prescribed windows, the third window's end being clamped to the wall clock
(second conjunct), and that last window end does not exceed the wall clock
(third conjunct). -/
theorem c2_forward_fill_pass (fetch : ℤ → ℤ → Option (List RawKline))
    (symbol interval : String) (ims T : ℤ) (clock : ℕ → ℤ) (fuel : ℕ)
    (p1 p2 p3 : List RawKline) (store : List Kline)
    (hims : 0 < ims)
    (hclock : ∀ n, clock n = T + 3 * (1500 * ims))
    (hfuel : 4 ≤ fuel)
    (h1 : fetch (floor_ms (T + ims)) (floor_ms (T + ims + 1500 * ims)) =
            some p1 ∧ p1 ≠ [] ∧
          (klines_from_raw symbol interval p1).isSome = true)
    (h2 : fetch (floor_ms (T + 2 * ims + 1500 * ims))
            (floor_ms (T + 2 * ims + 2 * (1500 * ims))) = some p2 ∧ p2 ≠ [] ∧
          (klines_from_raw symbol interval p2).isSome = true)
    (h3 : fetch (floor_ms (T + 3 * ims + 2 * (1500 * ims)))
            (floor_ms (T + 3 * (1500 * ims))) = some p3 ∧ p3 ≠ [] ∧
          (klines_from_raw symbol interval p3).isSome = true) :
    (∀ (fuel' iter : ℕ) (anchor : ℤ) (calls : List (ℤ × ℤ)) (saves : ℕ)
        (st : List Kline),
      floor_ms (clock iter) < anchor + ims →
      get_klines_forward fetch symbol interval ims clock (fuel' + 1) iter
          anchor calls saves st = RunResult.ok ⟨calls, saves, st⟩) ∧
    db_get_klines fetch symbol interval ims clock T false fuel store =
      RunResult.ok
        ⟨[(floor_ms (T + ims), floor_ms (T + ims + 1500 * ims)),
          (floor_ms (T + 2 * ims + 1500 * ims),
           floor_ms (T + 2 * ims + 2 * (1500 * ims))),
          (floor_ms (T + 3 * ims + 2 * (1500 * ims)),
           floor_ms (T + 3 * (1500 * ims)))],
         3,
         store ++ (klines_from_raw symbol interval p1).getD []
               ++ (klines_from_raw symbol interval p2).getD []
               ++ (klines_from_raw symbol interval p3).getD []⟩ ∧
    floor_ms (T + 3 * (1500 * ims)) ≤ floor_ms (clock 2) := by
  simp only [floor_ms] at h1 h2 h3 ⊢
  obtain ⟨hf1, hne1, hs1⟩ := h1
  obtain ⟨hf2, hne2, hs2⟩ := h2
  obtain ⟨hf3, hne3, hs3⟩ := h3
  obtain ⟨q1, hq1⟩ := Option.isSome_iff_exists.mp hs1
  obtain ⟨q2, hq2⟩ := Option.isSome_iff_exists.mp hs2
  obtain ⟨q3, hq3⟩ := Option.isSome_iff_exists.mp hs3
  refine ⟨?_, ?_, ?_⟩
  · intro fuel' iter anchor calls saves st hlt
    exact get_klines_forward_break fetch symbol interval ims clock fuel' iter
      anchor calls saves st hlt
  · obtain ⟨f, rfl⟩ : ∃ f, fuel = f + 4 := ⟨fuel - 4, by omega⟩
    simp only [db_get_klines, Bool.false_eq_true, if_false]
    rw [get_klines_forward_step fetch symbol interval ims clock (f + 3) 0 T
        [] 0 store p1 q1 (by rw [hclock 0]; linarith)
        (by rw [hclock 0, min_eq_left (by linarith)]; exact hf1) hne1 hq1]
    rw [hclock 0, min_eq_left (by linarith),
        show f + 3 = f + 2 + 1 from rfl, show (0 : ℕ) + 1 = 1 from rfl,
        List.nil_append]
    rw [get_klines_forward_step fetch symbol interval ims clock (f + 2) 1
        (T + ims + 1500 * ims) [(T + ims, T + ims + 1500 * ims)] 1
        (store ++ q1) p2 q2 (by rw [hclock 1]; linarith)
        (by
          rw [hclock 1,
              show T + ims + 1500 * ims + ims = T + 2 * ims + 1500 * ims by
                ring,
              show T + 2 * ims + 1500 * ims + 1500 * ims =
                T + 2 * ims + 2 * (1500 * ims) by ring,
              min_eq_left (by linarith)]
          exact hf2) hne2 hq2]
    rw [hclock 1,
        show T + ims + 1500 * ims + ims = T + 2 * ims + 1500 * ims by ring,
        show T + 2 * ims + 1500 * ims + 1500 * ims =
          T + 2 * ims + 2 * (1500 * ims) by ring,
        min_eq_left (by linarith),
        show f + 2 = f + 1 + 1 from rfl, show (1 : ℕ) + 1 = 2 from rfl,
        show [(T + ims, T + ims + 1500 * ims)] ++
            [(T + 2 * ims + 1500 * ims, T + 2 * ims + 2 * (1500 * ims))] =
          [(T + ims, T + ims + 1500 * ims),
           (T + 2 * ims + 1500 * ims, T + 2 * ims + 2 * (1500 * ims))] from
          rfl]
    rw [get_klines_forward_step fetch symbol interval ims clock (f + 1) 2
        (T + 2 * ims + 2 * (1500 * ims))
        [(T + ims, T + ims + 1500 * ims),
         (T + 2 * ims + 1500 * ims, T + 2 * ims + 2 * (1500 * ims))] 2
        ((store ++ q1) ++ q2) p3 q3 (by rw [hclock 2]; linarith)
        (by
          rw [hclock 2,
              show T + 2 * ims + 2 * (1500 * ims) + ims =
                T + 3 * ims + 2 * (1500 * ims) by ring,
              show T + 3 * ims + 2 * (1500 * ims) + 1500 * ims =
                T + 3 * (1500 * ims) + 3 * ims by ring,
              min_eq_right (by linarith)]
          exact hf3) hne3 hq3]
    rw [hclock 2,
        show T + 2 * ims + 2 * (1500 * ims) + ims =
          T + 3 * ims + 2 * (1500 * ims) by ring,
        show T + 3 * ims + 2 * (1500 * ims) + 1500 * ims =
          T + 3 * (1500 * ims) + 3 * ims by ring,
        min_eq_right (by linarith),
        show (2 : ℕ) + 1 = 3 from rfl,
        show [(T + ims, T + ims + 1500 * ims),
              (T + 2 * ims + 1500 * ims, T + 2 * ims + 2 * (1500 * ims))] ++
            [(T + 3 * ims + 2 * (1500 * ims), T + 3 * (1500 * ims))] =
          [(T + ims, T + ims + 1500 * ims),
           (T + 2 * ims + 1500 * ims, T + 2 * ims + 2 * (1500 * ims)),
           (T + 3 * ims + 2 * (1500 * ims), T + 3 * (1500 * ims))] from rfl]
    rw [get_klines_forward_break fetch symbol interval ims clock f 3
        (T + 3 * (1500 * ims))
        [(T + ims, T + ims + 1500 * ims),
         (T + 2 * ims + 1500 * ims, T + 2 * ims + 2 * (1500 * ims)),
         (T + 3 * ims + 2 * (1500 * ims), T + 3 * (1500 * ims))] 3
        (((store ++ q1) ++ q2) ++ q3) (by rw [hclock 3]; linarith)]
    simp only [RunResult.ok.injEq, PassResult.mk.injEq, hq1, hq2, hq3,
      Option.getD_some, List.append_assoc]
  · rw [hclock 2]

/-- Closed instance of C2: anchor 0, interval 1m, wall clock pinned at
`3 × (1500 minutes)` = 270000000 ms: exactly three calls, the third clamped
to the wall clock. -/
theorem c2_forward_fill_pass_witness :
    ((0 : ℤ) < 60000 ∧ (4 : ℕ) ≤ 5) ∧
    ((∀ (fuel' iter : ℕ) (anchor : ℤ) (calls : List (ℤ × ℤ)) (saves : ℕ)
        (st : List Kline),
      floor_ms ((fun _ : ℕ => (270000000 : ℤ)) iter) < anchor + 60000 →
      get_klines_forward fetchC2 "BTCUSDT" "1m" 60000
          (fun _ : ℕ => (270000000 : ℤ)) (fuel' + 1) iter anchor calls saves
          st = RunResult.ok ⟨calls, saves, st⟩) ∧
     db_get_klines fetchC2 "BTCUSDT" "1m" 60000
         (fun _ : ℕ => (270000000 : ℤ)) 0 false 5 [] =
       RunResult.ok
         ⟨[(floor_ms ((0 : ℤ) + 60000),
            floor_ms ((0 : ℤ) + 60000 + 1500 * 60000)),
           (floor_ms ((0 : ℤ) + 2 * 60000 + 1500 * 60000),
            floor_ms ((0 : ℤ) + 2 * 60000 + 2 * (1500 * 60000))),
           (floor_ms ((0 : ℤ) + 3 * 60000 + 2 * (1500 * 60000)),
            floor_ms ((0 : ℤ) + 3 * (1500 * 60000)))],
          3,
          [] ++ (klines_from_raw "BTCUSDT" "1m" [raw_sample 1000]).getD []
             ++ (klines_from_raw "BTCUSDT" "1m" [raw_sample 1000]).getD []
             ++ (klines_from_raw "BTCUSDT" "1m" [raw_sample 1000]).getD []⟩ ∧
     floor_ms ((0 : ℤ) + 3 * (1500 * 60000)) ≤
       floor_ms ((fun _ : ℕ => (270000000 : ℤ)) 2)) :=
  ⟨⟨by decide, by decide⟩,
   c2_forward_fill_pass fetchC2 "BTCUSDT" "1m" 60000 0
     (fun _ : ℕ => (270000000 : ℤ)) 5 [raw_sample 1000] [raw_sample 1000]
     [raw_sample 1000] [] (by decide) (fun _ => rfl) (by decide)
     (by decide) (by decide) (by decide)⟩

/-- Forward loop: an iteration whose fetch returns an empty page records the
call and terminates the pass, saving nothing. -/
theorem get_klines_forward_empty_stop (fetch : ℤ → ℤ → Option (List RawKline))
    (symbol interval : String) (ims : ℤ) (clock : ℕ → ℤ) (fuel iter : ℕ)
    (anchor : ℤ) (calls : List (ℤ × ℤ)) (saves : ℕ) (st : List Kline)
    (hgo : anchor + ims ≤ clock iter)
    (hfetch : fetch (anchor + ims)
        (min (anchor + ims + 1500 * ims) (clock iter)) = some []) :
    get_klines_forward fetch symbol interval ims clock (fuel + 1) iter anchor
        calls saves st =
      RunResult.ok
        ⟨calls ++ [(anchor + ims,
                    min (anchor + ims + 1500 * ims) (clock iter))],
         saves, st⟩ := by
  simp only [get_klines_forward, next_klines_start_time_forward, floor_ms]
  rw [if_neg (by push_cast; linarith), ite_gt_min,
      show anchor + ims * ((1 : ℕ) : ℤ) + ims * (klines_max_limit : ℤ) =
        anchor + ims + 1500 * ims by push_cast [klines_max_limit]; ring,
      show anchor + ims * ((1 : ℕ) : ℤ) = anchor + ims by push_cast; ring,
      hfetch]

/-- C6.  Re-synchronization with unchanged provider data inserts nothing:
when the store already holds every provider row for the pair (its earliest
and latest stored open times bound all of the provider's data), a
synchronization run performs one backward call that receives an empty page,
at most one forward call (which, if issued, also receives an empty page),
never invokes `_save_klines`, and leaves the store unchanged. -/
theorem c6_resync_inserts_nothing (D : List RawKline)
    (symbol interval : String) (ims emin emax now_ms : ℤ) (clock : ℕ → ℤ)
    (fuel : ℕ) (store : List Kline)
    (hims : 0 < ims) (hfuel : 0 < fuel)
    (hemin : (earliest_entry store symbol interval).map Kline.open_time =
      some emin)
    (hemax : (latest_entry store symbol interval).map Kline.open_time =
      some emax)
    (hD : ∀ r ∈ D, emin ≤ r.open_time_ms ∧ r.open_time_ms ≤ emax) :
    ∃ r : SyncResult,
      get_missing_klines (fetch_of_data D) symbol interval ims now_ms clock
          fuel store = RunResult.ok r ∧
      r.saves = 0 ∧ r.store = store ∧
      r.back_calls = [(emin - ims - 1500 * ims, emin - ims)] ∧
      r.fwd_calls.length ≤ 1 := by
  obtain ⟨ke, hke, hkeot⟩ := Option.map_eq_some'.mp hemin
  obtain ⟨kl, hkl, hklot⟩ := Option.map_eq_some'.mp hemax
  obtain ⟨f, rfl⟩ : ∃ f, fuel = f + 1 := ⟨fuel - 1, by omega⟩
  have hanchor : back_fill_anchor store symbol interval ims now_ms =
      emin - ims := by
    unfold back_fill_anchor
    rw [hke]
    dsimp only
    rw [next_klines_start_time_reverse, hkeot]
    push_cast
    ring
  have hempty_back : fetch_of_data D (emin - ims - 1500 * ims) (emin - ims) =
      some [] := by
    unfold fetch_of_data
    have hfil : D.filter
        (fun r => decide (emin - ims - 1500 * ims ≤ r.open_time_ms) &&
          decide (r.open_time_ms ≤ emin - ims)) = [] := by
      refine List.filter_eq_nil_iff.mpr fun r hr => ?_
      have hb := hD r hr
      simp only [Bool.and_eq_true, decide_eq_true_eq, not_and]
      intro _ h2
      linarith [hb.1]
    rw [hfil, List.take_nil]
  have hback : get_klines_reverse (fetch_of_data D) symbol interval ims
      (f + 1) (back_fill_anchor store symbol interval ims now_ms) [] 0
      store =
      RunResult.ok ⟨[(emin - ims - 1500 * ims, emin - ims)], 0, store⟩ := by
    rw [hanchor]
    simp only [get_klines_reverse, next_klines_start_time_reverse, floor_ms]
    rw [show emin - ims - ims * (klines_max_limit : ℤ) =
          emin - ims - 1500 * ims by push_cast [klines_max_limit]; ring,
        hempty_back]
    simp
  unfold get_missing_klines
  rw [hback]
  dsimp only
  rw [hkl]
  dsimp only
  rw [hklot]
  rcases le_or_lt (emax + ims) (clock 0) with hcl | hcl
  · have hempty_fwd : fetch_of_data D (emax + ims)
        (min (emax + ims + 1500 * ims) (clock 0)) = some [] := by
      unfold fetch_of_data
      have hfil : D.filter
          (fun r => decide (emax + ims ≤ r.open_time_ms) &&
            decide (r.open_time_ms ≤
              min (emax + ims + 1500 * ims) (clock 0))) = [] := by
        refine List.filter_eq_nil_iff.mpr fun r hr => ?_
        have hb := hD r hr
        simp only [Bool.and_eq_true, decide_eq_true_eq, not_and]
        intro hs _
        linarith [hb.2]
      rw [hfil, List.take_nil]
    rw [get_klines_forward_empty_stop (fetch_of_data D) symbol interval ims
        clock f 0 emax [] 0 store hcl hempty_fwd]
    exact ⟨⟨[(emin - ims - 1500 * ims, emin - ims)],
            [] ++ [(emax + ims, min (emax + ims + 1500 * ims) (clock 0))],
            0 + 0, store⟩, rfl, rfl, rfl, rfl, by simp⟩
  · rw [get_klines_forward_break (fetch_of_data D) symbol interval ims clock
        f 0 emax [] 0 store hcl]
    exact ⟨⟨[(emin - ims - 1500 * ims, emin - ims)], [], 0 + 0, store⟩,
           rfl, rfl, rfl, rfl, by simp⟩

/-- Closed instance of C6: a one-row store matching the one-row provider
dataset; the second synchronization run makes one backward call, receives an
empty page, issues no forward call (wall clock before the next bucket), and
inserts nothing. -/
theorem c6_resync_inserts_nothing_witness :
    ((0 : ℤ) < 60000 ∧ (0 : ℕ) < 2 ∧
     (earliest_entry c6store "BTCUSDT" "1m").map Kline.open_time =
        some 1000 ∧
     (latest_entry c6store "BTCUSDT" "1m").map Kline.open_time = some 1000 ∧
     (∀ r ∈ [raw_sample 1000],
        (1000 : ℤ) ≤ r.open_time_ms ∧ r.open_time_ms ≤ 1000)) ∧
    ∃ r : SyncResult,
      get_missing_klines (fetch_of_data [raw_sample 1000]) "BTCUSDT" "1m"
          60000 5 (fun _ => 0) 2 c6store = RunResult.ok r ∧
      r.saves = 0 ∧ r.store = c6store ∧
      r.back_calls = [(1000 - 60000 - 1500 * 60000, 1000 - 60000)] ∧
      r.fwd_calls.length ≤ 1 :=
  ⟨⟨by decide, by decide, by decide, by decide, by decide⟩,
   c6_resync_inserts_nothing [raw_sample 1000] "BTCUSDT" "1m" 60000 1000
     1000 5 (fun _ => 0) 2 c6store (by decide) (by decide) (by decide)
     (by decide) (by decide)⟩

/-- Backward pass: no run ever raises an `AttributeError` (its only
exception is the float-conversion `ValueError`). -/
theorem get_klines_reverse_no_attr (fetch : ℤ → ℤ → Option (List RawKline))
    (symbol interval : String) (ims : ℤ) :
    ∀ (fuel : ℕ) (E : ℤ) (calls : List (ℤ × ℤ)) (saves : ℕ)
      (store : List Kline) (a : String),
      get_klines_reverse fetch symbol interval ims fuel E calls saves store ≠
        RunResult.pyError (PyError.attributeError a)
  | 0, E, calls, saves, store, a => by simp [get_klines_reverse]
  | fuel + 1, E, calls, saves, store, a => by
    simp only [get_klines_reverse]
    split
    · split
      · exact get_klines_reverse_no_attr fetch symbol interval ims fuel
          _ _ _ _ a
      · simp
    · simp

/-- Forward pass: no run ever raises an `AttributeError` (its only
exception is the float-conversion `ValueError`). -/
theorem get_klines_forward_no_attr (fetch : ℤ → ℤ → Option (List RawKline))
    (symbol interval : String) (ims : ℤ) (clock : ℕ → ℤ) :
    ∀ (fuel k : ℕ) (endt : ℤ) (calls : List (ℤ × ℤ)) (saves : ℕ)
      (store : List Kline) (a : String),
      get_klines_forward fetch symbol interval ims clock fuel k endt calls
          saves store ≠
        RunResult.pyError (PyError.attributeError a)
  | 0, k, endt, calls, saves, store, a => by simp [get_klines_forward]
  | fuel + 1, k, endt, calls, saves, store, a => by
    simp only [get_klines_forward]
    split
    · simp
    · split
      · split
        · exact get_klines_forward_no_attr fetch symbol interval ims clock
            fuel _ _ _ _ _ a
        · simp
      · simp

/-- C7 (amended).  In `_get_missing_klines`, the read of
`last_klines_entry.open_time` fails with `AttributeError` exactly when the
backward step completes normally yet leaves no stored row for the pair —
which happens when the store was initially empty and the backward pass saved
nothing (first fetch refused, erroneous, or empty); whenever the store is
non-empty after the backward step, the re-query yields a row and the
forward-anchor read succeeds. -/
theorem c7_amended_forward_anchor (fetch : ℤ → ℤ → Option (List RawKline))
    (symbol interval : String) (ims now_ms : ℤ) (clock : ℕ → ℤ) (fuel : ℕ)
    (store : List Kline) :
    get_missing_klines fetch symbol interval ims now_ms clock fuel store =
        RunResult.pyError (PyError.attributeError "open_time") ↔
      ∃ back : PassResult,
        get_klines_reverse fetch symbol interval ims fuel
            (back_fill_anchor store symbol interval ims now_ms) [] 0 store =
          RunResult.ok back ∧
        latest_entry back.store symbol interval = none := by
  unfold get_missing_klines
  cases hrev : get_klines_reverse fetch symbol interval ims fuel
      (back_fill_anchor store symbol interval ims now_ms) [] 0 store with
  | outOfFuel => simp
  | pyError e =>
    constructor
    · intro h
      injection h with h'
      exact absurd hrev (h' ▸ get_klines_reverse_no_attr fetch symbol
        interval ims fuel _ _ _ _ _)
    · rintro ⟨back, hb, _⟩
      exact RunResult.noConfusion hb
  | ok back0 =>
    dsimp only
    cases hl : latest_entry back0.store symbol interval with
    | none =>
      constructor
      · intro _
        exact ⟨back0, rfl, hl⟩
      · intro _
        rfl
    | some last =>
      constructor
      · intro h
        exfalso
        dsimp only at h
        cases hfwd : get_klines_forward fetch symbol interval ims clock fuel
            0 last.open_time [] 0 back0.store with
        | outOfFuel => rw [hfwd] at h; exact RunResult.noConfusion h
        | ok fwd => rw [hfwd] at h; exact RunResult.noConfusion h
        | pyError e' =>
          rw [hfwd] at h
          injection h with h'
          exact absurd hfwd (h' ▸ get_klines_forward_no_attr fetch symbol
            interval ims clock fuel _ _ _ _ _ _)
      · rintro ⟨back, hb, hlat⟩
        injection hb with hb'
        rw [← hb'] at hlat
        rw [hl] at hlat
        exact Option.noConfusion hlat
